import Mathlib

/-!
Verification of the update-selection step of page reconciliation
(`src/third_party/wiredtiger/src/reconcile/rec_visibility.c`).

The C file is shallowly embedded: update chains become `List Upd`
(newest first, the `next` pointer is the list tail), the mutable
reconcile context becomes an explicit `Reconcile` record threaded
through the functions, and the fallible entry point
`__wt_rec_upd_select` becomes `updSelect : … → Except RecErr UpdSelectRes`.
The external visibility oracle (transaction manager) is not part of the
repository sources; following the spec it is abstracted as boolean
functions carried in a `Session` record.
-/

namespace WTRec

/-- 2^64 - 1, the largest 64-bit value. -/
def U64MAX : Nat := 2 ^ 64 - 1

/-- `WT_TXN_NONE`: beginning of time. -/
def WT_TXN_NONE : Nat := 0

/-- `WT_TXN_MAX`: end of time (`UINT64_MAX - 10`). -/
def WT_TXN_MAX : Nat := U64MAX - 10

/-- `WT_TXN_ABORTED`: update rolled back (`UINT64_MAX`). -/
def WT_TXN_ABORTED : Nat := U64MAX

/-- `WT_TS_NONE`: unset timestamp. -/
def WT_TS_NONE : Nat := 0

/-- `WT_TS_MAX`: unbounded timestamp (`UINT64_MAX`). -/
def WT_TS_MAX : Nat := U64MAX

/-- The `type` field of a `WT_UPDATE` (the kinds reconciliation cares about). -/
inductive UpdType where
  | standard
  | modify
  | tombstone
  | reserve
  deriving DecidableEq, Repr

/-- The `prepare_state` field of a `WT_UPDATE`. -/
inductive PrepareState where
  | init
  | locked
  | inprogress
  | resolved
  deriving DecidableEq, Repr

/-- A `WT_UPDATE` chain entry.  `restored_for_rollback` models the
`WT_UPDATE_RESTORED_FOR_ROLLBACK` flag, `size` models
`WT_UPDATE_MEMSIZE(upd)`, and `data` is an opaque payload token. -/
structure Upd where
  txnid : Nat
  start_ts : Nat
  durable_ts : Nat
  utype : UpdType
  prepare_state : PrepareState
  restored_for_rollback : Bool
  size : Nat
  data : Nat
  deriving DecidableEq, Repr

/-- `WT_TIME_WINDOW`: the six-field validity window plus the prepare bit. -/
structure TimeWindow where
  durable_start_ts : Nat
  start_ts : Nat
  start_txn : Nat
  durable_stop_ts : Nat
  stop_ts : Nat
  stop_txn : Nat
  prepare : Bool
  deriving DecidableEq, Repr

/-- Modelled from the spec: `__wt_time_window_init` (the time-window
helpers live outside this repository slice).  Defaults are
`start = (NONE, NONE)` and `stop = (MAX, MAX)` per the data model. -/
def twInit : TimeWindow :=
  { durable_start_ts := WT_TS_NONE
    start_ts := WT_TS_NONE
    start_txn := WT_TXN_NONE
    durable_stop_ts := WT_TS_NONE
    stop_ts := WT_TS_MAX
    stop_txn := WT_TXN_MAX
    prepare := false }

/-- Modelled from the spec: `__wt_time_window_set_start` takes the start
triple from the selected update. -/
def twSetStart (tw : TimeWindow) (u : Upd) : TimeWindow :=
  { tw with
    durable_start_ts := u.durable_ts
    start_ts := u.start_ts
    start_txn := u.txnid }

/-- Modelled from the spec: `__wt_time_window_set_stop` takes the stop
triple from a tombstone (a tombstone's commit pair becomes the stop pair). -/
def twSetStop (tw : TimeWindow) (u : Upd) : TimeWindow :=
  { tw with
    durable_stop_ts := u.durable_ts
    stop_ts := u.start_ts
    stop_txn := u.txnid }

/-- The kind of an unpacked on-disk cell: only the `WT_CELL_DEL` /
non-deleted distinction matters to this code. -/
inductive CellKind where
  | del
  | value
  deriving DecidableEq, Repr

/-- A `WT_CELL_UNPACK`: kind, the `WT_CELL_UNPACK_OVERFLOW` and
`WT_CELL_UNPACK_PREPARE` flags, the cell's time window and payload. -/
structure CellUnpack where
  kind : CellKind
  overflow : Bool
  prepare : Bool
  tw : TimeWindow
  data : Nat
  deriving DecidableEq, Repr

/-- Modelled from the spec: the Visibility Oracle / transaction-manager
interface consumed by this file (`__wt_txn_visible_all`,
`__txn_visible_id`, `__wt_txn_visible` live outside the repository
slice), plus the btree / connection flags the code reads
(`WT_BTREE_HS`, `WT_CONN_IN_MEMORY`). -/
structure Session where
  btree_hs : Bool
  conn_in_memory : Bool
  visible_all : Nat → Nat → Bool
  visible_id : Nat → Bool
  visible : Nat → Nat → Bool

/-- A `WT_SAVE_UPD` entry as recorded by `__rec_update_save` (the
`ins`/`ripcip` references are opaque and omitted). -/
structure SaveUpd where
  onpage_upd : Option Upd
  restore : Bool
  deriving DecidableEq, Repr

/-- The `WT_RECONCILE` state this code reads and mutates: the
`WT_REC_*` flags, the cached `last_running` watermark, the page type,
counters, watermarks and the saved-update vector. -/
structure Reconcile where
  visible_all_flag : Bool
  evict : Bool
  hs : Bool
  in_memory : Bool
  checkpoint : Bool
  clean_after_rec : Bool
  visibility_err : Bool
  last_running : Nat
  page_col_fix : Bool
  updates_seen : Nat
  updates_unstable : Nat
  max_txn : Nat
  max_ts : Nat
  max_ondisk_ts : Nat
  min_skipped_ts : Nat
  leave_dirty : Bool
  cache_write_restore : Bool
  supd : List SaveUpd
  supd_memsize : Nat
  deriving DecidableEq, Repr

/-- `upd->prepare_state == WT_PREPARE_LOCKED || upd->prepare_state ==
WT_PREPARE_INPROGRESS`. -/
def updPrepared (u : Upd) : Bool :=
  match u.prepare_state with
  | PrepareState.locked => true
  | PrepareState.inprogress => true
  | _ => false

/-- `WT_UPDATE_DATA_VALUE(upd)`: a self-contained update (standard or
tombstone). -/
def updDataValue (u : Upd) : Bool :=
  match u.utype with
  | UpdType.standard => true
  | UpdType.tombstone => true
  | _ => false

/-- Modelled from the spec: `__wt_txn_upd_visible_all` — a prepared
update is never globally visible, otherwise global visibility of the
update's transaction at its durable timestamp. -/
def txn_upd_visible_all (s : Session) (u : Upd) : Bool :=
  if updPrepared u then false else s.visible_all u.txnid u.durable_ts

/-- Modelled from the spec: `__wt_txn_upd_visible_type … == WT_VISIBLE_TRUE` —
snapshot visibility of a non-prepared update. -/
def txn_upd_visible_true (s : Session) (u : Upd) : Bool :=
  if updPrepared u then false else s.visible_id u.txnid

/-- `__rec_update_stable`. -/
def rec_update_stable (s : Session) (r : Reconcile) (u : Upd) : Bool :=
  if r.visible_all_flag then txn_upd_visible_all s u
  else txn_upd_visible_true s u && s.visible u.txnid u.start_ts

/-- The uncommitted test of the chain walk (`rec_visibility.c:266`):
not a history-store page, and either `txn_id ≥ last_running` under
`WT_REC_VISIBLE_ALL` or not snapshot-visible otherwise. -/
def updUncommitted (s : Session) (r : Reconcile) (u : Upd) : Bool :=
  !s.btree_hs &&
    (if r.visible_all_flag then decide (r.last_running ≤ u.txnid)
     else !s.visible_id u.txnid)

/-- Committed under the walk's visibility rule: the negation of
`updUncommitted` (history-store entries are implicitly committed). -/
def selCommitted (s : Session) (r : Reconcile) (u : Upd) : Bool :=
  s.btree_hs ||
    (if r.visible_all_flag then decide (u.txnid < r.last_running)
     else s.visible_id u.txnid)

/-- The walk's selection predicate: non-aborted, committed, and not
prepared unless evicting (a prepared update falls through to selection
only under `WT_REC_EVICT`). -/
def selectable (s : Session) (r : Reconcile) (u : Upd) : Bool :=
  !decide (u.txnid = WT_TXN_ABORTED) && selCommitted s r u &&
    (!updPrepared u || r.evict)

/-- Error outcomes of the embedded functions: `EBUSY`, the
`WT_RET_PANIC` path, and a crash/assertion-violation path (dereference
of a null pointer that `WT_ASSERT` documents as impossible). -/
inductive RecErr where
  | busy
  | panic
  | assertFail
  deriving DecidableEq, Repr

instance {e a : Type} [DecidableEq e] [DecidableEq a] : DecidableEq (Except e a)
  | Except.error x, Except.error y =>
    if h : x = y then Decidable.isTrue (by rw [h])
    else Decidable.isFalse fun hc => h (Except.error.inj hc)
  | Except.error _, Except.ok _ => Decidable.isFalse fun hc => Except.noConfusion hc
  | Except.ok _, Except.error _ => Decidable.isFalse fun hc => Except.noConfusion hc
  | Except.ok x, Except.ok y =>
    if h : x = y then Decidable.isTrue (by rw [h])
    else Decidable.isFalse fun hc => h (Except.ok.inj hc)

/-- The review loop of `__rec_append_orig_value` (`rec_visibility.c:70`):
walk the existing chain checking the conditions under which no work is
needed; `none` means an early `return (0)` (skip the append), `some o`
means the walk reached the tail with `oldest_upd = o`. -/
def appendLoop (s : Session) (c : CellUnpack) :
    Option Upd → List Upd → Option (Option Upd)
  | oldest, [] => some oldest
  | oldest, u :: rest =>
    if u.restored_for_rollback then none
    else if c.prepare = true ∧ u.utype ≠ UpdType.tombstone then none
    else if c.tw.start_ts = u.start_ts ∧ c.tw.start_txn = u.txnid ∧
        u.utype ≠ UpdType.tombstone then none
    else if updDataValue u = true ∧ txn_upd_visible_all s u = true then none
    else
      appendLoop s c
        (if u.txnid ≠ WT_TXN_ABORTED then some u else oldest) rest

/-- The synthetic standard update `__rec_append_orig_value` allocates
from the cell's start fields (`rec_visibility.c:121`). -/
def stdFromCell (c : CellUnpack) : Upd :=
  { txnid := c.tw.start_txn
    start_ts := c.tw.start_ts
    durable_ts := c.tw.durable_start_ts
    utype := UpdType.standard
    prepare_state := PrepareState.init
    restored_for_rollback := false
    size := 0
    data := c.data }

/-- The synthetic tombstone `__rec_append_orig_value` allocates from the
cell's stop fields (`rec_visibility.c:136`). -/
def tombFromCell (c : CellUnpack) : Upd :=
  { txnid := c.tw.stop_txn
    start_ts := c.tw.stop_ts
    durable_ts := c.tw.durable_stop_ts
    utype := UpdType.tombstone
    prepare_state := PrepareState.init
    restored_for_rollback := false
    size := 0
    data := 0 }

/-- `__rec_append_orig_value`, applied to the chain suffix starting at
the `upd` argument.  Returns the list of entries published at the chain
tail (empty when the append is skipped). -/
def recAppendOrigValue (s : Session) (c : CellUnpack) (suffix : List Upd) :
    Except RecErr (List Upd) :=
  match suffix with
  | [] => Except.error RecErr.assertFail
  | _ :: _ =>
    match appendLoop s c none suffix with
    | none => Except.ok []
    | some oldest =>
      if (c.tw.stop_ts ≠ WT_TS_MAX ∨ c.tw.stop_txn ≠ WT_TXN_MAX) ∧
          s.visible_all c.tw.stop_txn c.tw.stop_ts = true then Except.ok []
      else if c.tw.stop_ts ≠ WT_TS_MAX ∨ c.tw.stop_txn ≠ WT_TXN_MAX then
        match oldest with
        | none => Except.error RecErr.assertFail
        | some o =>
          if o.utype ≠ UpdType.tombstone then
            Except.ok [tombFromCell c, stdFromCell c]
          else Except.ok [stdFromCell c]
      else Except.ok [stdFromCell c]

/-- The `upd_select` argument of `__rec_need_save_upd`: the selected
update and the composed window. -/
structure UpdSelectT where
  upd : Option Upd
  tw : TimeWindow

/-- `__rec_need_save_upd`. -/
def rec_need_save_upd (s : Session) (r : Reconcile) (us : UpdSelectT)
    (has_newer_updates : Bool) : Bool :=
  if us.tw.prepare then true
  else if r.evict && has_newer_updates then true
  else if !r.hs && !r.in_memory && !r.page_col_fix then false
  else if r.checkpoint && us.upd.isNone then false
  else
    !s.visible_all us.tw.stop_txn us.tw.stop_ts &&
      !s.visible_all us.tw.start_txn us.tw.start_ts

/-- The accumulator of the chain walk of `__wt_rec_upd_select`: the
local variables of the loop plus the `WT_RECONCILE` counters it
increments.  `sel` keeps the selected update together with the rest of
the chain after it (its `next` pointer). -/
structure WalkState where
  sel : Option (Upd × List Upd)
  first_txn_upd : Option Upd
  max_ts : Nat
  max_txn : Nat
  min_skipped_ts : Nat
  has_newer_updates : Bool
  upd_memsize : Nat
  updates_seen : Nat
  updates_unstable : Nat
  deriving DecidableEq, Repr

/-- Initial walk state (`rec_visibility.c:228`). -/
def initWalk (r : Reconcile) : WalkState :=
  { sel := none
    first_txn_upd := none
    max_ts := WT_TS_NONE
    max_txn := WT_TXN_NONE
    min_skipped_ts := r.min_skipped_ts
    has_newer_updates := false
    upd_memsize := 0
    updates_seen := 0
    updates_unstable := 0 }

/-- Outcome of one iteration of the walk loop: continue, `return EBUSY`,
or `break`. -/
inductive StepRes where
  | skip : WalkState → StepRes
  | busy : StepRes
  | brk : WalkState → StepRes
  deriving DecidableEq, Repr

/-- `++r->updates_seen; upd_memsize += WT_UPDATE_MEMSIZE(upd)`. -/
def bumpSeen (st : WalkState) (u : Upd) : WalkState :=
  { st with
    updates_seen := st.updates_seen + 1
    upd_memsize := st.upd_memsize + u.size }

/-- `if (first_txn_upd == NULL) first_txn_upd = upd`. -/
def bumpFirst (st : WalkState) (u : Upd) : WalkState :=
  if st.first_txn_upd.isNone then { st with first_txn_upd := some u } else st

/-- `if (WT_TXNID_LT(max_txn, txnid)) max_txn = txnid`. -/
def bumpTxn (st : WalkState) (u : Upd) : WalkState :=
  if st.max_txn < u.txnid then { st with max_txn := u.txnid } else st

/-- `if (upd->start_ts > max_ts) max_ts = upd->start_ts`. -/
def bumpTs (st : WalkState) (u : Upd) : WalkState :=
  if u.start_ts > st.max_ts then { st with max_ts := u.start_ts } else st

/-- `if (upd->start_ts < r->min_skipped_ts) r->min_skipped_ts = upd->start_ts`. -/
def bumpSkipped (st : WalkState) (u : Upd) : WalkState :=
  if u.start_ts < st.min_skipped_ts then
    { st with min_skipped_ts := u.start_ts }
  else st

/-- `if (upd_select->upd == NULL) upd_select->upd = upd`. -/
def setSel (st : WalkState) (u : Upd) (rest : List Upd) : WalkState :=
  if st.sel.isNone then { st with sel := some (u, rest) } else st

/-- One iteration of the chain walk (`rec_visibility.c:244`-`312`). -/
def walkStep (s : Session) (r : Reconcile) (st : WalkState) (u : Upd)
    (rest : List Upd) : StepRes :=
  if u.txnid = WT_TXN_ABORTED then StepRes.skip st
  else
    let st3 := bumpTxn (bumpFirst (bumpSeen st u) u) u
    if updUncommitted s r u then
      if st3.sel.isSome then StepRes.busy
      else StepRes.skip { st3 with has_newer_updates := true }
    else if updPrepared u = true ∧ r.evict = false then
      StepRes.skip
        (bumpSkipped (bumpTs { st3 with has_newer_updates := true } u) u)
    else
      let st5 := setSel (bumpTs st3 u) u rest
      if r.evict then
        if rec_update_stable s r u then StepRes.skip st5
        else StepRes.skip { st5 with updates_unstable := st5.updates_unstable + 1 }
      else StepRes.brk st5

/-- Result of the chain walk. -/
inductive WalkOut where
  | busy : WalkOut
  | done : WalkState → WalkOut
  deriving DecidableEq, Repr

/-- The chain walk of `__wt_rec_upd_select` (the `for` loop at
`rec_visibility.c:244`). -/
def walkChain (s : Session) (r : Reconcile) :
    WalkState → List Upd → WalkOut
  | st, [] => WalkOut.done st
  | st, u :: rest =>
    match walkStep s r st u rest with
    | StepRes.busy => WalkOut.busy
    | StepRes.brk st2 => WalkOut.done st2
    | StepRes.skip st2 => walkChain s r st2 rest

/-- Skip past aborted successors of a tombstone
(`rec_visibility.c:382`): returns the last node visited and the
remaining chain after it. -/
def skipAborted : Upd → List Upd → Upd × List Upd
  | u, [] => (u, [])
  | u, v :: vs =>
    if v.txnid = WT_TXN_ABORTED then skipAborted v vs else (u, v :: vs)

/-- Fold the walk's counter increments into the reconcile context
(in the C code these fields are mutated in place during the loop). -/
def foldCounters (r : Reconcile) (st : WalkState) : Reconcile :=
  { r with
    updates_seen := r.updates_seen + st.updates_seen
    updates_unstable := r.updates_unstable + st.updates_unstable
    min_skipped_ts := st.min_skipped_ts }

/-- The tombstone / window-composition block of `__wt_rec_upd_select`
(`rec_visibility.c:359`-`414`).  Returns the (possibly moved) selection
with its chain suffix, the composed window before out-of-order repair,
and the list of entries appended at the chain tail by the tombstone-only
path. -/
def selectPhase (s : Session) (vpack : Option CellUnpack)
    (sel0 : Option (Upd × List Upd)) :
    Except RecErr (Option (Upd × List Upd) × TimeWindow × List Upd) :=
  match sel0 with
  | none => Except.ok (none, twInit, [])
  | some (u, rest) =>
    let tw1 :=
      if u.prepare_state = PrepareState.inprogress then
        { twInit with prepare := true }
      else twInit
    if u.utype = UpdType.tombstone then
      let tw2 := twSetStop tw1 u
      if s.visible_all u.txnid u.start_ts then
        Except.ok (some (u, rest), twSetStart tw2 u, [])
      else
        match skipAborted u rest with
        | (_, v :: vs) => Except.ok (some (v, vs), twSetStart tw2 v, [])
        | (_, []) =>
          if tw2.stop_ts ≠ WT_TS_NONE ∨ tw2.stop_txn ≠ WT_TXN_NONE then
            match vpack with
            | none => Except.error RecErr.assertFail
            | some c =>
              match recAppendOrigValue s c (u :: rest) with
              | Except.error e => Except.error e
              | Except.ok [] => Except.error RecErr.assertFail
              | Except.ok (a :: tl) =>
                Except.ok (some (a, tl), twSetStart tw2 a, a :: tl)
          else Except.ok (none, tw2, [])
    else Except.ok (some (u, rest), twSetStart tw1 u, [])

/-- The out-of-order repair (`rec_visibility.c:427`-`436`): if the stop
pair is strictly before the start pair, rewrite the start to equal the
stop. -/
def twRepair (tw : TimeWindow) : TimeWindow :=
  if tw.stop_ts < tw.start_ts ∨
      (tw.stop_ts = tw.start_ts ∧ tw.stop_txn < tw.start_txn) then
    { tw with
      durable_start_ts := tw.durable_stop_ts
      start_ts := tw.stop_ts
      start_txn := tw.stop_txn }
  else tw

/-- The result record of `updSelect`: the selection and window
(`WT_UPDATE_SELECT`), the mutated reconcile context, the possibly
extended chain, and two ghost observations: whether a save was recorded
(`upd_saved`) and whether the final original-value append call at
`rec_visibility.c:495` was made. -/
structure UpdSelectRes where
  sel : Option Upd
  tw : TimeWindow
  r : Reconcile
  chain : List Upd
  upd_saved : Bool
  appendInvoked : Bool
  deriving DecidableEq, Repr

/-- The watermark updates of `__wt_rec_upd_select` after the walk
(`rec_visibility.c:346`, `443`-`452`): fold the counters, raise
`max_ondisk_ts` from the selected update, raise `max_txn` / `max_ts`
and mark the page dirty when newer updates were seen. -/
def foldWatermarks (r : Reconcile) (st : WalkState) : Reconcile :=
  let r1 := foldCounters r st
  let r2 :=
    match st.sel with
    | some (u, _) =>
      if u.start_ts > r1.max_ondisk_ts then
        { r1 with max_ondisk_ts := u.start_ts }
      else r1
    | none => r1
  let r3 :=
    if r2.max_txn < st.max_txn then { r2 with max_txn := st.max_txn }
    else r2
  let r4 :=
    if st.max_ts > r3.max_ts then { r3 with max_ts := st.max_ts } else r3
  if st.has_newer_updates then { r4 with leave_dirty := true } else r4

/-- The save step (`rec_visibility.c:461`-`477`): decide via
`__rec_need_save_upd`, compute `supd_restore`, set
`cache_write_restore`, and record the `WT_SAVE_UPD` entry (with a null
`onpage_upd` for a tombstone selection).  Returns the updated context
and the `upd_saved` flag. -/
def applySave (s : Session) (r5 : Reconcile) (st : WalkState)
    (sel1 : Option (Upd × List Upd)) (tw : TimeWindow) : Reconcile × Bool :=
  let needSave :=
    rec_need_save_upd s r5 { upd := sel1.map Prod.fst, tw := tw }
      st.has_newer_updates
  let supd_restore :=
    r5.evict && (st.has_newer_updates || s.conn_in_memory || r5.page_col_fix)
  if needSave then
    let r5a :=
      if supd_restore then { r5 with cache_write_restore := true } else r5
    let onpage : Option Upd :=
      match sel1 with
      | some (u, _) => if u.utype = UpdType.tombstone then none else some u
      | none => none
    ({ r5a with
       supd := r5a.supd ++ [{ onpage_upd := onpage, restore := supd_restore }]
       supd_memsize := r5a.supd_memsize + st.upd_memsize }, true)
  else (r5, false)

/-- The post-walk portion of `__wt_rec_upd_select`
(`rec_visibility.c:346`-`501`). -/
def finishSelect (s : Session) (r : Reconcile) (chain : List Upd)
    (vpack : Option CellUnpack) (st : WalkState) :
    Except RecErr UpdSelectRes :=
  match selectPhase s vpack st.sel with
  | Except.error e => Except.error e
  | Except.ok (sel1, tw3, app1) =>
    let tw := twRepair tw3
    let rb := applySave s (foldWatermarks r st) st sel1 tw
    match sel1, vpack with
    | some (u, su), some c =>
      if c.kind ≠ CellKind.del ∧ (rb.2 || c.overflow) = true then
        match recAppendOrigValue s c (u :: su) with
        | Except.error e => Except.error e
        | Except.ok app2 =>
          Except.ok
            { sel := some u, tw := tw, r := rb.1
              chain := chain ++ app1 ++ app2
              upd_saved := rb.2, appendInvoked := true }
      else
        Except.ok
          { sel := some u, tw := tw, r := rb.1, chain := chain ++ app1
            upd_saved := rb.2, appendInvoked := false }
    | none, _ =>
      Except.ok
        { sel := none, tw := tw, r := rb.1, chain := chain ++ app1
          upd_saved := rb.2, appendInvoked := false }
    | some (u, _), none =>
      Except.ok
        { sel := some u, tw := tw, r := rb.1, chain := chain ++ app1
          upd_saved := rb.2, appendInvoked := false }

/-- `__wt_rec_upd_select`.  The chain argument is the update list of the
`WT_INSERT` item or row slot; an empty list models a key with no
updates. -/
def updSelect (s : Session) (r : Reconcile) (chain : List Upd)
    (vpack : Option CellUnpack) : Except RecErr UpdSelectRes :=
  match walkChain s r (initWalk r) chain with
  | WalkOut.busy => Except.error RecErr.busy
  | WalkOut.done st =>
    if st.first_txn_upd.isNone then
      Except.ok
        { sel := none, tw := twInit, r := foldCounters r st, chain := chain
          upd_saved := false, appendInvoked := false }
    else if st.has_newer_updates && (r.clean_after_rec || r.visibility_err) then
      if r.visibility_err then Except.error RecErr.panic
      else Except.error RecErr.busy
    else finishSelect s r chain vpack st

/-! ### Concrete fixtures used by witnesses and counterexamples -/

/-- A standard committed update with the given transaction id and
timestamp. -/
def updStd (txn ts : Nat) : Upd :=
  { txnid := txn, start_ts := ts, durable_ts := ts
    utype := UpdType.standard, prepare_state := PrepareState.init
    restored_for_rollback := false, size := 0, data := 0 }

/-- A tombstone with the given transaction id and timestamp. -/
def updTomb (txn ts : Nat) : Upd :=
  { txnid := txn, start_ts := ts, durable_ts := ts
    utype := UpdType.tombstone, prepare_state := PrepareState.init
    restored_for_rollback := false, size := 0, data := 0 }

/-- An aborted update. -/
def updAborted : Upd :=
  { txnid := WT_TXN_ABORTED, start_ts := 0, durable_ts := 0
    utype := UpdType.standard, prepare_state := PrepareState.init
    restored_for_rollback := false, size := 0, data := 0 }

/-- A session whose oracle says nothing is globally visible and every
transaction is snapshot-visible. -/
def sW : Session :=
  { btree_hs := false, conn_in_memory := false
    visible_all := fun _ _ => false
    visible_id := fun _ => true
    visible := fun _ _ => true }

/-- A session whose oracle says everything is globally visible. -/
def sVis : Session :=
  { btree_hs := false, conn_in_memory := false
    visible_all := fun _ _ => true
    visible_id := fun _ => true
    visible := fun _ _ => true }

/-- A baseline reconcile context: `WT_REC_VISIBLE_ALL` mode with
`last_running = 7`, no eviction, no history store. -/
def rW : Reconcile :=
  { visible_all_flag := true, evict := false, hs := false, in_memory := false
    checkpoint := false, clean_after_rec := false, visibility_err := false
    last_running := 7, page_col_fix := false
    updates_seen := 0, updates_unstable := 0, max_txn := 0, max_ts := 0
    max_ondisk_ts := 0, min_skipped_ts := 100
    leave_dirty := false, cache_write_restore := false
    supd := [], supd_memsize := 0 }

/-- The walk state produced on `[updStd 10 5, updStd 3 20]` under `rW`. -/
def stC1 : WalkState :=
  { sel := some (updStd 3 20, [])
    first_txn_upd := some (updStd 10 5)
    max_ts := 20, max_txn := 10, min_skipped_ts := 100
    has_newer_updates := true, upd_memsize := 0
    updates_seen := 2, updates_unstable := 0 }

/-- `rW` with a `last_running` above all example transaction ids. -/
def rBig : Reconcile := { rW with last_running := 100 }

/-- `rW` with `WT_REC_CLEAN_AFTER_REC` set. -/
def rC2 : Reconcile := { rW with clean_after_rec := true }

/-- `rW` with `WT_REC_EVICT` set. -/
def rC7 : Reconcile := { rW with evict := true }

/-- An on-disk cell with start pair `(ts 20, txn 3)` and an unbounded
stop pair. -/
def cC4 : CellUnpack :=
  { kind := CellKind.value, overflow := false, prepare := false
    tw := { durable_start_ts := 20, start_ts := 20, start_txn := 3
            durable_stop_ts := 0, stop_ts := WT_TS_MAX, stop_txn := WT_TXN_MAX
            prepare := false }
    data := 77 }

/-- `cC4` stored in overflow blocks. -/
def cOvf : CellUnpack := { cC4 with overflow := true, data := 88 }

/-- `cC4` marked prepared. -/
def cPrep : CellUnpack := { cC4 with prepare := true, data := 99 }

/-- A time window whose stop pair lies strictly before its start pair. -/
def twBadW : TimeWindow :=
  { durable_start_ts := 9, start_ts := 9, start_txn := 4
    durable_stop_ts := 5, stop_ts := 5, stop_txn := 2, prepare := false }

/-- A time window with equal start and stop pairs. -/
def twEqW : TimeWindow :=
  { durable_start_ts := 5, start_ts := 5, start_txn := 2
    durable_stop_ts := 6, stop_ts := 5, stop_txn := 2, prepare := false }

/-- Result of `updSelect sW rW [updStd 3 20] none`. -/
def resC3 : UpdSelectRes :=
  { sel := some (updStd 3 20)
    tw := { durable_start_ts := 20, start_ts := 20, start_txn := 3
            durable_stop_ts := 0, stop_ts := WT_TS_MAX, stop_txn := WT_TXN_MAX
            prepare := false }
    r := { rW with updates_seen := 1, max_txn := 3, max_ts := 20, max_ondisk_ts := 20 }
    chain := [updStd 3 20], upd_saved := false, appendInvoked := false }

/-- Result of `updSelect sVis rW [updTomb 5 30] none`: a globally
visible tombstone stays selected. -/
def resC5 : UpdSelectRes :=
  { sel := some (updTomb 5 30)
    tw := { durable_start_ts := 30, start_ts := 30, start_txn := 5
            durable_stop_ts := 30, stop_ts := 30, stop_txn := 5
            prepare := false }
    r := { rW with updates_seen := 1, max_txn := 5, max_ts := 30, max_ondisk_ts := 30 }
    chain := [updTomb 5 30], upd_saved := false, appendInvoked := false }

/-- The saved-update entry recorded by the eviction run of C7. -/
def eC7 : SaveUpd := { onpage_upd := some (updStd 3 20), restore := true }

/-- The walk state of the eviction run on `[updStd 10 5, updStd 3 20]`. -/
def stC7 : WalkState :=
  { sel := some (updStd 3 20, [])
    first_txn_upd := some (updStd 10 5)
    max_ts := 20, max_txn := 10, min_skipped_ts := 100
    has_newer_updates := true, upd_memsize := 0
    updates_seen := 2, updates_unstable := 1 }

/-- Result of `updSelect sW rC7 [updStd 10 5, updStd 3 20] none`. -/
def resC7 : UpdSelectRes :=
  { sel := some (updStd 3 20)
    tw := { durable_start_ts := 20, start_ts := 20, start_txn := 3
            durable_stop_ts := 0, stop_ts := WT_TS_MAX, stop_txn := WT_TXN_MAX
            prepare := false }
    r := { rC7 with updates_seen := 2, updates_unstable := 1, max_txn := 10
                    max_ts := 20, max_ondisk_ts := 20, leave_dirty := true
                    cache_write_restore := true, supd := [eC7] }
    chain := [updStd 10 5, updStd 3 20], upd_saved := true, appendInvoked := false }

/-- Result of `updSelect sW rBig [updStd 12 60] (some cOvf)`: the
overflow cell forces the original-value append with no save recorded. -/
def resC9 : UpdSelectRes :=
  { sel := some (updStd 12 60)
    tw := { durable_start_ts := 60, start_ts := 60, start_txn := 12
            durable_stop_ts := 0, stop_ts := WT_TS_MAX, stop_txn := WT_TXN_MAX
            prepare := false }
    r := { rBig with updates_seen := 1, max_txn := 12, max_ts := 60, max_ondisk_ts := 60 }
    chain := [updStd 12 60, stdFromCell cOvf], upd_saved := false, appendInvoked := true }

/-- The walk state of the `CLEAN_AFTER_REC` run on `[updStd 10 5]`. -/
def stC2 : WalkState :=
  { sel := none
    first_txn_upd := some (updStd 10 5)
    max_ts := 0, max_txn := 10, min_skipped_ts := 100
    has_newer_updates := true, upd_memsize := 0
    updates_seen := 1, updates_unstable := 0 }

/-! ### Basic lemmas about the walk -/

theorem selCommitted_eq_not_uncommitted (s : Session) (r : Reconcile) (u : Upd) :
    selCommitted s r u = !updUncommitted s r u := by
  unfold selCommitted updUncommitted
  cases hb : s.btree_hs <;> cases hf : r.visible_all_flag <;>
    simp [← decide_not, decide_eq_decide, Nat.not_le]

theorem notPrepBranch (u : Upd) (r : Reconcile) :
    ¬(updPrepared u = true ∧ r.evict = false) ↔ (!updPrepared u || r.evict) = true := by
  cases hp : updPrepared u <;> cases he : r.evict <;> simp

@[simp] theorem bumpSeen_sel (st : WalkState) (u : Upd) :
    (bumpSeen st u).sel = st.sel := rfl

@[simp] theorem bumpFirst_sel (st : WalkState) (u : Upd) :
    (bumpFirst st u).sel = st.sel := by
  unfold bumpFirst; split <;> rfl

@[simp] theorem bumpTxn_sel (st : WalkState) (u : Upd) :
    (bumpTxn st u).sel = st.sel := by
  unfold bumpTxn; split <;> rfl

@[simp] theorem bumpTs_sel (st : WalkState) (u : Upd) :
    (bumpTs st u).sel = st.sel := by
  unfold bumpTs; split <;> rfl

@[simp] theorem bumpSkipped_sel (st : WalkState) (u : Upd) :
    (bumpSkipped st u).sel = st.sel := by
  unfold bumpSkipped; split <;> rfl

theorem setSel_sel (st : WalkState) (u : Upd) (rest : List Upd) :
    (setSel st u rest).sel = if st.sel.isNone then some (u, rest) else st.sel := by
  unfold setSel; split <;> simp_all

@[simp] theorem bumpSeen_first (st : WalkState) (u : Upd) :
    (bumpSeen st u).first_txn_upd = st.first_txn_upd := rfl

theorem bumpFirst_first (st : WalkState) (u : Upd) :
    (bumpFirst st u).first_txn_upd =
      if st.first_txn_upd.isNone then some u else st.first_txn_upd := by
  unfold bumpFirst; split <;> simp_all

@[simp] theorem bumpTxn_first (st : WalkState) (u : Upd) :
    (bumpTxn st u).first_txn_upd = st.first_txn_upd := by
  unfold bumpTxn; split <;> rfl

@[simp] theorem bumpTs_first (st : WalkState) (u : Upd) :
    (bumpTs st u).first_txn_upd = st.first_txn_upd := by
  unfold bumpTs; split <;> rfl

@[simp] theorem bumpSkipped_first (st : WalkState) (u : Upd) :
    (bumpSkipped st u).first_txn_upd = st.first_txn_upd := by
  unfold bumpSkipped; split <;> rfl

@[simp] theorem setSel_first (st : WalkState) (u : Upd) (rest : List Upd) :
    (setSel st u rest).first_txn_upd = st.first_txn_upd := by
  unfold setSel; split <;> rfl

@[simp] theorem bumpSeen_hnu (st : WalkState) (u : Upd) :
    (bumpSeen st u).has_newer_updates = st.has_newer_updates := rfl

@[simp] theorem bumpFirst_hnu (st : WalkState) (u : Upd) :
    (bumpFirst st u).has_newer_updates = st.has_newer_updates := by
  unfold bumpFirst; split <;> rfl

@[simp] theorem bumpTxn_hnu (st : WalkState) (u : Upd) :
    (bumpTxn st u).has_newer_updates = st.has_newer_updates := by
  unfold bumpTxn; split <;> rfl

@[simp] theorem bumpTs_hnu (st : WalkState) (u : Upd) :
    (bumpTs st u).has_newer_updates = st.has_newer_updates := by
  unfold bumpTs; split <;> rfl

@[simp] theorem bumpSkipped_hnu (st : WalkState) (u : Upd) :
    (bumpSkipped st u).has_newer_updates = st.has_newer_updates := by
  unfold bumpSkipped; split <;> rfl

@[simp] theorem setSel_hnu (st : WalkState) (u : Upd) (rest : List Upd) :
    (setSel st u rest).has_newer_updates = st.has_newer_updates := by
  unfold setSel; split <;> rfl

theorem selectable_of_branch (s : Session) (r : Reconcile) (u : Upd)
    (hab : ¬u.txnid = WT_TXN_ABORTED) (hunc : ¬updUncommitted s r u = true)
    (hprep : ¬(updPrepared u = true ∧ r.evict = false)) :
    selectable s r u = true := by
  have h1 : (!updPrepared u || r.evict) = true := (notPrepBranch u r).mp hprep
  simp only [selectable, selCommitted_eq_not_uncommitted, Bool.and_eq_true,
    Bool.not_eq_true']
  refine ⟨⟨?_, ?_⟩, h1⟩
  · simp [hab]
  · simp_all

theorem walkStep_aborted (s : Session) (r : Reconcile) (st : WalkState) (u : Upd)
    (rest : List Upd) (h : u.txnid = WT_TXN_ABORTED) :
    walkStep s r st u rest = StepRes.skip st := by
  simp [walkStep, h]

theorem walkStep_busy_iff (s : Session) (r : Reconcile) (st : WalkState) (u : Upd)
    (rest : List Upd) :
    walkStep s r st u rest = StepRes.busy ↔
      u.txnid ≠ WT_TXN_ABORTED ∧ updUncommitted s r u = true ∧ st.sel.isSome = true := by
  simp only [walkStep]
  split
  · simp_all
  · split
    · split <;> simp_all
    · split
      · simp_all
      · split
        · split <;> simp_all
        · simp_all

theorem walkStep_skip_sel (s : Session) (r : Reconcile) (st st2 : WalkState)
    (u : Upd) (rest : List Upd) (h : walkStep s r st u rest = StepRes.skip st2) :
    st2.sel = st.sel ∨
      (st.sel = none ∧ st2.sel = some (u, rest) ∧ selectable s r u = true ∧
        r.evict = true) := by
  simp only [walkStep] at h
  split at h
  · left; cases h; rfl
  · rename_i hab
    split at h
    · split at h
      · cases h
      · left; cases h; simp
    · rename_i hunc
      split at h
      · left; cases h; simp
      · rename_i hprep
        have hselable := selectable_of_branch s r u hab hunc hprep
        split at h
        · rename_i hev
          split at h <;> cases h <;>
            · by_cases hs : st.sel = none
              · right
                exact ⟨hs, by simp [setSel_sel, hs], hselable, hev⟩
              · left; simp [setSel_sel, Option.isNone_iff_eq_none, hs]
        · cases h

theorem walkStep_brk_sel (s : Session) (r : Reconcile) (st st2 : WalkState)
    (u : Upd) (rest : List Upd) (h : walkStep s r st u rest = StepRes.brk st2) :
    r.evict = false ∧ u.txnid ≠ WT_TXN_ABORTED ∧
      (st2.sel = st.sel ∨
        (st.sel = none ∧ st2.sel = some (u, rest) ∧ selectable s r u = true)) := by
  simp only [walkStep] at h
  split at h
  · cases h
  · rename_i hab
    split at h
    · split at h <;> cases h
    · rename_i hunc
      split at h
      · cases h
      · rename_i hprep
        have hselable := selectable_of_branch s r u hab hunc hprep
        split at h
        · split at h <;> cases h
        · rename_i hev
          cases h
          refine ⟨by simp_all, hab, ?_⟩
          by_cases hs : st.sel = none
          · right
            exact ⟨hs, by simp [setSel_sel, hs], hselable⟩
          · left; simp [setSel_sel, Option.isNone_iff_eq_none, hs]

theorem walkStep_skip_none_classify (s : Session) (r : Reconcile)
    (st st2 : WalkState) (u : Upd) (rest : List Upd)
    (h : walkStep s r st u rest = StepRes.skip st2) (h2 : st2.sel = none)
    (hab : u.txnid ≠ WT_TXN_ABORTED) :
    updUncommitted s r u = true ∨ (updPrepared u = true ∧ r.evict = false) := by
  simp only [walkStep] at h
  split at h
  · exact absurd (by assumption) hab
  · split at h
    · exact Or.inl (by assumption)
    · split at h
      · exact Or.inr (by assumption)
      · exfalso
        split at h
        · split at h <;>
            (cases h; simp [setSel_sel] at h2; split at h2 <;> simp_all)
        · cases h

theorem walkChain_cons (s : Session) (r : Reconcile) (st : WalkState) (u : Upd)
    (rest : List Upd) :
    walkChain s r st (u :: rest) =
      match walkStep s r st u rest with
      | StepRes.busy => WalkOut.busy
      | StepRes.brk st2 => WalkOut.done st2
      | StepRes.skip st2 => walkChain s r st2 rest := rfl

theorem walkChain_sel_some (s : Session) (r : Reconcile) (p : Upd × List Upd) :
    ∀ (chain : List Upd) (st st2 : WalkState), st.sel = some p →
      walkChain s r st chain = WalkOut.done st2 → st2.sel = some p := by
  intro chain
  induction chain with
  | nil =>
    intro st st2 hp h
    simp only [walkChain] at h
    cases h; exact hp
  | cons u rest ih =>
    intro st st2 hp h
    rw [walkChain_cons] at h
    cases hstep : walkStep s r st u rest with
    | busy => simp only [hstep] at h; cases h
    | brk st3 =>
      simp only [hstep] at h
      obtain rfl : st3 = st2 := WalkOut.done.inj h
      rcases walkStep_brk_sel s r st st3 u rest hstep with ⟨-, -, hc⟩
      rcases hc with hc | ⟨hn, -⟩
      · rw [hc]; exact hp
      · rw [hn] at hp; cases hp
    | skip st3 =>
      simp only [hstep] at h
      refine ih st3 st2 ?_ h
      rcases walkStep_skip_sel s r st st3 u rest hstep with hc | ⟨hn, -⟩
      · rw [hc]; exact hp
      · rw [hn] at hp; cases hp

theorem walkChain_done_decomp (s : Session) (r : Reconcile) :
    ∀ (chain : List Upd) (st st2 : WalkState) (u : Upd) (rest : List Upd),
      st.sel = none → walkChain s r st chain = WalkOut.done st2 →
      st2.sel = some (u, rest) →
      ∃ pre, chain = pre ++ u :: rest ∧ selectable s r u = true ∧
        ∀ v ∈ pre, v.txnid ≠ WT_TXN_ABORTED →
          (updUncommitted s r v = true ∨
            (updPrepared v = true ∧ r.evict = false)) := by
  intro chain
  induction chain with
  | nil =>
    intro st st2 u rest hnone h hsel
    simp only [walkChain] at h
    cases h
    rw [hnone] at hsel; cases hsel
  | cons u0 rest0 ih =>
    intro st st2 u rest hnone h hsel
    rw [walkChain_cons] at h
    cases hstep : walkStep s r st u0 rest0 with
    | busy => simp only [hstep] at h; cases h
    | brk st3 =>
      simp only [hstep] at h
      obtain rfl : st3 = st2 := WalkOut.done.inj h
      rcases walkStep_brk_sel s r st st3 u0 rest0 hstep with ⟨-, -, hc⟩
      rcases hc with hc | ⟨-, hset, hsb⟩
      · rw [hc, hnone] at hsel; cases hsel
      · rw [hset] at hsel
        injection hsel with hsel
        rw [Prod.mk.injEq] at hsel
        obtain ⟨h1, h2⟩ := hsel
        refine ⟨[], ?_, ?_, by simp⟩
        · simp [← h1, ← h2]
        · rw [← h1]; exact hsb
    | skip st3 =>
      simp only [hstep] at h
      cases hcase : st3.sel with
      | none =>
        obtain ⟨pre2, heq, hselable, hob⟩ := ih st3 st2 u rest hcase h hsel
        refine ⟨u0 :: pre2, by simp [heq], hselable, ?_⟩
        intro v hv hvab
        rcases List.mem_cons.mp hv with hv | hv
        · subst hv
          exact walkStep_skip_none_classify s r st st3 v rest0 hstep hcase hvab
        · exact hob v hv hvab
      | some p =>
        have hp2 := walkChain_sel_some s r p rest0 st3 st2 hcase h
        have hpu : p = (u, rest) := by
          rw [hp2] at hsel
          exact Option.some.inj hsel
        rcases walkStep_skip_sel s r st st3 u0 rest0 hstep with hc | ⟨-, hset, hsb, -⟩
        · rw [hnone] at hc; rw [hc] at hcase; cases hcase
        · have hq : (u0, rest0) = (u, rest) := by
            rw [hset] at hcase
            exact (Option.some.inj hcase).trans hpu
          rw [Prod.mk.injEq] at hq
          obtain ⟨hu, hr⟩ := hq
          subst hu; subst hr
          exact ⟨[], by simp, hsb, by simp⟩

/-! ### Claim C1 -/

/-- C1: for every update chain walked by `__wt_rec_upd_select`, the
update selected during the walk (when non-null) is the first entry in
newest-first order that is non-aborted, committed under the
reconciliation's visibility rule, and not prepared except under
eviction, where (by the code's own assertion that the locked state is
never seen during eviction) only a prepared-in-progress update may be
selected; every strictly newer non-aborted entry is uncommitted or
prepared. -/
theorem c1_selection_rule (s : Session) (r : Reconcile) (chain : List Upd)
    (st : WalkState) (u : Upd) (rest : List Upd)
    (hlock : r.evict = true → ∀ v ∈ chain, v.prepare_state ≠ PrepareState.locked)
    (hdone : walkChain s r (initWalk r) chain = WalkOut.done st)
    (hsel : st.sel = some (u, rest)) :
    selectable s r u = true ∧
    (updPrepared u = true →
      r.evict = true ∧ u.prepare_state = PrepareState.inprogress) ∧
    ∃ pre, chain = pre ++ u :: rest ∧
      ∀ v ∈ pre, v.txnid ≠ WT_TXN_ABORTED →
        (selCommitted s r v = false ∨ updPrepared v = true) := by
  obtain ⟨pre, heq, hsb, hob⟩ :=
    walkChain_done_decomp s r chain (initWalk r) st u rest rfl hdone hsel
  refine ⟨hsb, ?_, pre, heq, ?_⟩
  · intro hp
    have hev : r.evict = true := by
      simp only [selectable, Bool.and_eq_true, Bool.or_eq_true,
        Bool.not_eq_true'] at hsb
      rcases hsb.2 with h | h
      · rw [hp] at h; cases h
      · exact h
    refine ⟨hev, ?_⟩
    have hmem : u ∈ chain :=
      heq ▸ List.mem_append_right pre (List.mem_cons_self u rest)
    have hnl := hlock hev u hmem
    cases hps : u.prepare_state <;> simp_all [updPrepared]
  · intro v hv hvab
    rcases hob v hv hvab with h | ⟨h, -⟩
    · left
      rw [selCommitted_eq_not_uncommitted, h]; rfl
    · right; exact h

/-! ### Claim C10 -/

theorem walkChain_all_aborted (s : Session) (r : Reconcile) :
    ∀ (chain : List Upd) (st : WalkState),
      (∀ u ∈ chain, u.txnid = WT_TXN_ABORTED) →
      walkChain s r st chain = WalkOut.done st := by
  intro chain
  induction chain with
  | nil => intro st _; rfl
  | cons u rest ih =>
    intro st h
    rw [walkChain_cons,
      walkStep_aborted s r st u rest (h u (List.mem_cons_self u rest))]
    exact ih st fun v hv => h v (List.mem_cons_of_mem u hv)

/-- C10: on a key with no update chain, or a chain in which every entry
is aborted, `__wt_rec_upd_select` returns OK with an empty selection,
the default time window, no saved-update entry, the chain untouched and
the reconcile context unchanged in every field. -/
theorem c10_frame (s : Session) (r : Reconcile) (chain : List Upd)
    (vpack : Option CellUnpack)
    (hall : ∀ u ∈ chain, u.txnid = WT_TXN_ABORTED) :
    updSelect s r chain vpack =
      Except.ok
        { sel := none, tw := twInit, r := r, chain := chain
          upd_saved := false, appendInvoked := false } := by
  unfold updSelect
  rw [walkChain_all_aborted s r chain (initWalk r) hall]
  have hfold : foldCounters r
      { sel := none, first_txn_upd := none, max_ts := WT_TS_NONE
        max_txn := WT_TXN_NONE, min_skipped_ts := r.min_skipped_ts
        has_newer_updates := false, upd_memsize := 0, updates_seen := 0
        updates_unstable := 0 } = r := by
    cases r; simp [foldCounters]
  simp [initWalk, hfold]

/-- Witness for C10 on the single-entry aborted chain. -/
theorem c10_frame_witness :
    updSelect sW rW [updAborted] none =
      Except.ok
        { sel := none, tw := twInit, r := rW, chain := [updAborted]
          upd_saved := false, appendInvoked := false } :=
  c10_frame sW rW [updAborted] none (by decide)

/-! ### Error classification and the shape of finishSelect results -/

theorem recAppend_err (s : Session) (c : CellUnpack) (suffix : List Upd)
    (e : RecErr) (h : recAppendOrigValue s c suffix = Except.error e) :
    e = RecErr.assertFail := by
  unfold recAppendOrigValue at h
  split at h
  · cases h; rfl
  · split at h
    · cases h
    · split at h
      · cases h
      · split at h
        · split at h
          · cases h; rfl
          · split at h <;> cases h
        · cases h

theorem selectPhase_err (s : Session) (vpack : Option CellUnpack)
    (sel0 : Option (Upd × List Upd)) (e : RecErr)
    (h : selectPhase s vpack sel0 = Except.error e) : e = RecErr.assertFail := by
  simp only [selectPhase] at h
  repeat' split at h
  all_goals
    cases h <;>
      first
        | rfl
        | exact recAppend_err _ _ _ _ (by assumption)

theorem finishSelect_spec (s : Session) (r : Reconcile) (chain : List Upd)
    (vpack : Option CellUnpack) (st : WalkState) (res : UpdSelectRes)
    (h : finishSelect s r chain vpack st = Except.ok res) :
    ∃ sel1 tw3 app1, selectPhase s vpack st.sel = Except.ok (sel1, tw3, app1) ∧
      res.sel = sel1.map Prod.fst ∧ res.tw = twRepair tw3 ∧
      res.r = (applySave s (foldWatermarks r st) st sel1 (twRepair tw3)).1 ∧
      res.upd_saved = (applySave s (foldWatermarks r st) st sel1 (twRepair tw3)).2 := by
  simp only [finishSelect] at h
  split at h
  · cases h
  · rename_i sel1 tw3 app1 heq
    split at h
    · rename_i u su c
      split at h
      · split at h
        · cases h
        · cases h
          exact ⟨some (u, su), tw3, app1, heq, rfl, rfl, rfl, rfl⟩
      · cases h
        exact ⟨some (u, su), tw3, app1, heq, rfl, rfl, rfl, rfl⟩
    · cases h
      exact ⟨none, tw3, app1, heq, rfl, rfl, rfl, rfl⟩
    · rename_i u su
      cases h
      exact ⟨some (u, su), tw3, app1, heq, rfl, rfl, rfl, rfl⟩

theorem finishSelect_err (s : Session) (r : Reconcile) (chain : List Upd)
    (vpack : Option CellUnpack) (st : WalkState) (e : RecErr)
    (h : finishSelect s r chain vpack st = Except.error e) :
    e = RecErr.assertFail := by
  simp only [finishSelect] at h
  repeat' split at h
  all_goals
    cases h <;>
      first
        | rfl
        | exact selectPhase_err _ _ _ _ (by assumption)
        | exact recAppend_err _ _ _ _ (by assumption)

theorem twRepair_ordered (tw : TimeWindow) :
    (twRepair tw).start_ts < (twRepair tw).stop_ts ∨
      ((twRepair tw).start_ts = (twRepair tw).stop_ts ∧
        (twRepair tw).start_txn ≤ (twRepair tw).stop_txn) := by
  unfold twRepair
  split
  · right; exact ⟨rfl, Nat.le_refl _⟩
  · rename_i hc
    omega

theorem twRepair_stop (tw : TimeWindow) :
    (twRepair tw).stop_ts = tw.stop_ts ∧ (twRepair tw).stop_txn = tw.stop_txn := by
  unfold twRepair; split <;> exact ⟨rfl, rfl⟩

/-! ### Claim C3 -/

/-- C3: if after composition the stop pair lies strictly before the
start pair (strictly by timestamp, or equal timestamps with a smaller
stop transaction), the start is rewritten to equal the stop, producing
an empty window; equal start and stop pairs are not repaired; and every
window returned by `__wt_rec_upd_select` satisfies start ≤ stop in the
lexicographic (timestamp, txn) order. -/
theorem c3_out_of_order_repair :
    (∀ tw : TimeWindow,
      (tw.stop_ts < tw.start_ts ∨
        (tw.stop_ts = tw.start_ts ∧ tw.stop_txn < tw.start_txn)) →
      twRepair tw =
        { tw with durable_start_ts := tw.durable_stop_ts
                  start_ts := tw.stop_ts, start_txn := tw.stop_txn }) ∧
    (∀ tw : TimeWindow, tw.start_ts = tw.stop_ts → tw.start_txn = tw.stop_txn →
      twRepair tw = tw) ∧
    (∀ (s : Session) (r : Reconcile) (chain : List Upd)
        (vpack : Option CellUnpack) (res : UpdSelectRes),
      updSelect s r chain vpack = Except.ok res →
      res.tw.start_ts < res.tw.stop_ts ∨
        (res.tw.start_ts = res.tw.stop_ts ∧
          res.tw.start_txn ≤ res.tw.stop_txn)) := by
  refine ⟨?_, ?_, ?_⟩
  · intro tw hc
    unfold twRepair
    rw [if_pos hc]
  · intro tw h1 h2
    unfold twRepair
    have hn : ¬(tw.stop_ts < tw.start_ts ∨
        (tw.stop_ts = tw.start_ts ∧ tw.stop_txn < tw.start_txn)) := by omega
    rw [if_neg hn]
  · intro s r chain vpack res h
    unfold updSelect at h
    split at h
    · cases h
    · split at h
      · cases h
        left
        exact (by decide : twInit.start_ts < twInit.stop_ts)
      · split at h
        · split at h <;> cases h
        · obtain ⟨sel1, tw3, app1, -, -, htw, -, -⟩ :=
            finishSelect_spec _ _ _ _ _ _ h
          rw [htw]
          exact twRepair_ordered tw3

/-- Witness for C3: a strictly out-of-order window is repaired, an
equal-pair window is untouched, and the concrete run
`updSelect sW rW [updStd 3 20] none` returns an ordered window. -/
theorem c3_out_of_order_repair_witness :
    twRepair twBadW =
      { twBadW with durable_start_ts := twBadW.durable_stop_ts
                    start_ts := twBadW.stop_ts, start_txn := twBadW.stop_txn } ∧
    twRepair twEqW = twEqW ∧
    (resC3.tw.start_ts < resC3.tw.stop_ts ∨
      (resC3.tw.start_ts = resC3.tw.stop_ts ∧
        resC3.tw.start_txn ≤ resC3.tw.stop_txn)) :=
  ⟨c3_out_of_order_repair.1 twBadW (by decide),
   c3_out_of_order_repair.2.1 twEqW (by decide) (by decide),
   c3_out_of_order_repair.2.2 sW rW [updStd 3 20] none resC3 (by decide)⟩

/-! ### Claim C6 -/

/-- C6: `__rec_need_save_upd` follows exactly the ordered rule set — a
prepared selection is saved; under EVICT with newer updates it is
saved; without HS / IN_MEMORY on a non fixed-length column-store page
it is not saved; under CHECKPOINT with an empty selection it is not
saved; otherwise it is saved iff neither the start nor the stop pair of
the selected window is globally visible.  Stated as the equivalent
flattened boolean form. -/
theorem c6_save_decision (s : Session) (r : Reconcile) (us : UpdSelectT)
    (hnu : Bool) :
    rec_need_save_upd s r us hnu =
      (us.tw.prepare || (r.evict && hnu) ||
        ((r.hs || r.in_memory || r.page_col_fix) &&
          !(r.checkpoint && us.upd.isNone) &&
          (!s.visible_all us.tw.stop_txn us.tw.stop_ts &&
            !s.visible_all us.tw.start_txn us.tw.start_ts))) := by
  unfold rec_need_save_upd
  generalize s.visible_all us.tw.stop_txn us.tw.stop_ts = a
  generalize s.visible_all us.tw.start_txn us.tw.start_ts = b
  cases hp : us.tw.prepare <;> cases he : r.evict <;> cases hn : hnu <;>
    cases hh : r.hs <;> cases hm : r.in_memory <;> cases hf : r.page_col_fix <;>
    cases hc : r.checkpoint <;> cases hu : us.upd.isNone <;>
    cases a <;> cases b <;> simp_all

/-! ### Claim C5 (counterexample) -/

/-- C5 is refuted by the code: on the chain whose only entry is a
globally visible committed tombstone, `__wt_rec_upd_select` returns OK
with the tombstone itself as the final selection — the selection kind
is `TOMBSTONE`, which the claim says can never be returned. -/
theorem c5_counterexample :
    updSelect sVis rW [updTomb 5 30] none = Except.ok resC5 ∧
    resC5.sel = some (updTomb 5 30) ∧
    (updTomb 5 30).utype = UpdType.tombstone := by decide

/-! ### Claim C9 -/

theorem finishSelect_append_iff (s : Session) (r : Reconcile)
    (chain : List Upd) (vpack : Option CellUnpack) (st : WalkState)
    (res : UpdSelectRes) (h : finishSelect s r chain vpack st = Except.ok res) :
    res.appendInvoked = true ↔
      (res.sel.isSome = true ∧ ∃ c, vpack = some c ∧ c.kind ≠ CellKind.del ∧
        (res.upd_saved = true ∨ c.overflow = true)) := by
  simp only [finishSelect] at h
  split at h
  · cases h
  · rename_i sel1 tw3 app1 heq
    split at h
    · rename_i u su c
      split at h
      · rename_i hcond
        split at h
        · cases h
        · cases h
          constructor
          · intro _
            refine ⟨rfl, c, rfl, hcond.1, ?_⟩
            have h2 := hcond.2
            rw [Bool.or_eq_true] at h2
            exact h2
          · intro _; rfl
      · rename_i hcond
        cases h
        constructor
        · intro hfalse; exact absurd hfalse (by simp)
        · rintro ⟨-, c2, hc2, hkind, hor⟩
          injection hc2 with hc2
          subst hc2
          refine absurd ⟨hkind, ?_⟩ hcond
          rw [Bool.or_eq_true]
          rcases hor with h2 | h2
          · exact Or.inl h2
          · exact Or.inr h2
    · cases h
      constructor
      · intro hfalse; exact absurd hfalse (by simp)
      · rintro ⟨hsome, c2, hc2, -, -⟩
        cases hsome
    · rename_i u su
      cases h
      constructor
      · intro hfalse; exact absurd hfalse (by simp)
      · rintro ⟨-, c2, hc2, -, -⟩
        cases hc2

/-- C9: upon returning OK, the final original-value append call at
`rec_visibility.c:495` is made exactly when the selection is non-empty,
a non-deleted on-disk cell exists, and either a save was recorded or
the cell payload lives in overflow blocks. -/
theorem c9_append_condition (s : Session) (r : Reconcile) (chain : List Upd)
    (vpack : Option CellUnpack) (res : UpdSelectRes)
    (h : updSelect s r chain vpack = Except.ok res) :
    res.appendInvoked = true ↔
      (res.sel.isSome = true ∧ ∃ c, vpack = some c ∧ c.kind ≠ CellKind.del ∧
        (res.upd_saved = true ∨ c.overflow = true)) := by
  unfold updSelect at h
  split at h
  · cases h
  · split at h
    · cases h
      simp
    · split at h
      · split at h <;> cases h
      · exact finishSelect_append_iff _ _ _ _ _ _ h

/-- Witness for C9: the overflow-cell run
`updSelect sW rBig [updStd 12 60] (some cOvf)` invokes the appender with
no save recorded. -/
theorem c9_append_condition_witness :
    resC9.appendInvoked = true ↔
      (resC9.sel.isSome = true ∧ ∃ c, (some cOvf : Option CellUnpack) = some c ∧
        c.kind ≠ CellKind.del ∧ (resC9.upd_saved = true ∨ c.overflow = true)) :=
  c9_append_condition sW rBig [updStd 12 60] (some cOvf) resC9 (by decide)

/-! ### Claim C7 -/

theorem foldWatermarks_flags (r : Reconcile) (st : WalkState) :
    (foldWatermarks r st).evict = r.evict ∧
    (foldWatermarks r st).page_col_fix = r.page_col_fix ∧
    (foldWatermarks r st).supd = r.supd ∧
    (foldWatermarks r st).cache_write_restore = r.cache_write_restore := by
  refine ⟨?_, ?_, ?_, ?_⟩ <;>
    · simp only [foldWatermarks, foldCounters]
      repeat' split
      all_goals rfl

theorem applySave_entry (s : Session) (r5 : Reconcile) (st : WalkState)
    (sel1 : Option (Upd × List Upd)) (tw : TimeWindow) (e : SaveUpd)
    (h : (applySave s r5 st sel1 tw).1.supd = r5.supd ++ [e]) :
    e.restore =
      (r5.evict && (st.has_newer_updates || s.conn_in_memory || r5.page_col_fix)) ∧
    (e.restore = true →
      (applySave s r5 st sel1 tw).1.cache_write_restore = true) := by
  simp only [applySave] at h ⊢
  split at h
  · rename_i hneed
    dsimp only at h
    have hsupd2 :
        (if r5.evict && (st.has_newer_updates || s.conn_in_memory || r5.page_col_fix) then
            { r5 with cache_write_restore := true } else r5).supd = r5.supd := by
      split <;> rfl
    rw [hsupd2] at h
    have h3 := List.append_cancel_left h
    injection h3 with h4 h5
    subst h4
    refine ⟨rfl, ?_⟩
    intro h2
    have h2b : (r5.evict &&
        (st.has_newer_updates || s.conn_in_memory || r5.page_col_fix)) = true := h2
    rw [if_pos hneed]
    show (if r5.evict && (st.has_newer_updates || s.conn_in_memory || r5.page_col_fix) then
        ({ r5 with cache_write_restore := true } : Reconcile) else r5).cache_write_restore = true
    rw [if_pos h2b]
  · exfalso
    have hlen := congrArg List.length h
    simp at hlen

/-- C7: whenever `__wt_rec_upd_select` records a saved-update entry,
its restore flag equals "evicting and (newer updates were seen, or the
database is in-memory, or the page is fixed-length column store)", and
a set restore flag forces `cache_write_restore` on the reconcile
context. -/
theorem c7_restore_flag (s : Session) (r : Reconcile) (chain : List Upd)
    (vpack : Option CellUnpack) (st : WalkState) (res : UpdSelectRes)
    (e : SaveUpd)
    (hw : walkChain s r (initWalk r) chain = WalkOut.done st)
    (hok : updSelect s r chain vpack = Except.ok res)
    (hsupd : res.r.supd = r.supd ++ [e]) :
    e.restore =
      (r.evict && (st.has_newer_updates || s.conn_in_memory || r.page_col_fix)) ∧
    (e.restore = true → res.r.cache_write_restore = true) := by
  unfold updSelect at hok
  split at hok
  · cases hok
  · rename_i st2 heq2
    rw [hw] at heq2
    have hst : st = st2 := WalkOut.done.inj heq2
    subst hst
    split at hok
    · cases hok
      exfalso
      have hlen := congrArg List.length hsupd
      simp [foldCounters] at hlen
    · split at hok
      · split at hok <;> cases hok
      · obtain ⟨sel1, tw3, app1, -, -, -, hr, -⟩ :=
          finishSelect_spec _ _ _ _ _ _ hok
        rw [hr] at hsupd
        have hflags := foldWatermarks_flags r st
        rw [← hflags.2.2.1] at hsupd
        obtain ⟨h1, h2⟩ :=
          applySave_entry s (foldWatermarks r st) st sel1 (twRepair tw3) e hsupd
        constructor
        · rw [h1, hflags.1, hflags.2.1]
        · intro hr2
          rw [hr]
          exact h2 hr2

/-- Witness for C7 on the eviction run
`updSelect sW rC7 [updStd 10 5, updStd 3 20] none`, which records a
save with the restore flag set. -/
theorem c7_restore_flag_witness :
    eC7.restore =
      (rC7.evict &&
        (stC7.has_newer_updates || sW.conn_in_memory || rC7.page_col_fix)) ∧
    (eC7.restore = true → resC7.r.cache_write_restore = true) :=
  c7_restore_flag sW rC7 [updStd 10 5, updStd 3 20] none stC7 resC7 eC7
    (by decide) (by decide) (by decide)

/-! ### Claim C8 -/

theorem appendLoop_all_tomb (s : Session) (c : CellUnpack) :
    ∀ (l : List Upd) (old : Option Upd),
      (∀ v ∈ l, v.utype = UpdType.tombstone ∧ v.restored_for_rollback = false ∧
        v.txnid ≠ WT_TXN_ABORTED ∧ s.visible_all v.txnid v.durable_ts = false) →
      (l = [] ∧ appendLoop s c old l = some old) ∨
      (∃ o, o ∈ l ∧ o.utype = UpdType.tombstone ∧
        appendLoop s c old l = some (some o)) := by
  intro l
  induction l with
  | nil => intro old _; exact Or.inl ⟨rfl, rfl⟩
  | cons u rest ih =>
    intro old h
    obtain ⟨ht, hr, ha, hv⟩ := h u (List.mem_cons_self u rest)
    right
    have hvall : txn_upd_visible_all s u = false := by
      unfold txn_upd_visible_all
      split
      · rfl
      · exact hv
    have hstep : appendLoop s c old (u :: rest) = appendLoop s c (some u) rest := by
      simp only [appendLoop]
      rw [if_neg (by simp [hr]), if_neg (by simp [ht]), if_neg (by simp [ht]),
        if_neg (by simp [hvall]), if_pos ha]
    rcases ih (some u) (fun v hv2 => h v (List.mem_cons_of_mem u hv2)) with
      ⟨hnil, hres⟩ | ⟨o, ho, hot, hres⟩
    · subst hnil
      exact ⟨u, List.mem_cons_self u [], ht, by rw [hstep]; exact hres⟩
    · exact ⟨o, List.mem_cons_of_mem u ho, hot, by rw [hstep]; exact hres⟩

theorem appendLoop_some_tomb (s : Session) (c : CellUnpack)
    (hc : c.prepare = true) :
    ∀ (l : List Upd) (old o : Option Upd),
      appendLoop s c old l = some o →
      ∀ v ∈ l, v.utype = UpdType.tombstone := by
  intro l
  induction l with
  | nil => intro old o _ v hv; exact absurd hv (List.not_mem_nil v)
  | cons u rest ih =>
    intro old o h v hv
    simp only [appendLoop] at h
    split at h
    · cases h
    · split at h
      · cases h
      · split at h
        · cases h
        · split at h
          · cases h
          · rename_i h1 h2 h3 h4
            rcases List.mem_cons.mp hv with rfl | hv2
            · by_contra hnt
              exact h2 ⟨hc, hnt⟩
            · exact ih _ o h v hv2

/-- C8 is refuted by the code: with a prepared on-disk cell and the
chain `[TOMB, STD]`, the chain head is a tombstone yet the appender
still skips the append — the prepared-cell test is applied to every
walked entry, not only the head. -/
theorem c8_counterexample :
    recAppendOrigValue sW cPrep [updTomb 9 50, updStd 3 60] = Except.ok [] ∧
    (updTomb 9 50).utype = UpdType.tombstone ∧ cPrep.prepare = true := by decide

/-- C8 amended: the prepared-cell test is evaluated for every entry the
appender walks, not only the chain head.  With a prepared cell, the
append is skipped (the call returns with the chain unchanged) whenever
any entry of the chain is not a tombstone — so the append proceeds only
when every entry of the chain is a tombstone — and on an all-tombstone
chain the append does proceed when no other skip condition applies (no
entry restored for rollback, aborted or globally visible, and the
cell's stop pair not globally visible). -/
theorem c8_prepared_cell :
    (∀ (s : Session) (c : CellUnpack) (chain : List Upd) (v : Upd),
      c.prepare = true → v ∈ chain → v.utype ≠ UpdType.tombstone →
      recAppendOrigValue s c chain = Except.ok []) ∧
    (∀ (s : Session) (c : CellUnpack) (u : Upd) (rest : List Upd),
      (∀ v ∈ u :: rest, v.utype = UpdType.tombstone ∧
        v.restored_for_rollback = false ∧ v.txnid ≠ WT_TXN_ABORTED ∧
        s.visible_all v.txnid v.durable_ts = false) →
      ((c.tw.stop_ts ≠ WT_TS_MAX ∨ c.tw.stop_txn ≠ WT_TXN_MAX) →
        s.visible_all c.tw.stop_txn c.tw.stop_ts = false) →
      recAppendOrigValue s c (u :: rest) = Except.ok [stdFromCell c]) := by
  constructor
  · intro s c chain v hc hv hnt
    cases chain with
    | nil => exact absurd hv (List.not_mem_nil v)
    | cons u rest =>
      cases hml : appendLoop s c none (u :: rest) with
      | none => simp only [recAppendOrigValue, hml]
      | some o =>
        exact absurd
          (appendLoop_some_tomb s c hc (u :: rest) none o hml v hv) hnt
  · intro s c u rest hall hstop
    rcases appendLoop_all_tomb s c (u :: rest) none hall with
      ⟨hnil, -⟩ | ⟨o, -, hot, hloop⟩
    · cases hnil
    · simp only [recAppendOrigValue, hloop]
      have h1 : ¬((c.tw.stop_ts ≠ WT_TS_MAX ∨ c.tw.stop_txn ≠ WT_TXN_MAX) ∧
          s.visible_all c.tw.stop_txn c.tw.stop_ts = true) := by
        rintro ⟨hnt, hvt⟩
        rw [hstop hnt] at hvt
        cases hvt
      rw [if_neg h1]
      by_cases hnt : c.tw.stop_ts ≠ WT_TS_MAX ∨ c.tw.stop_txn ≠ WT_TXN_MAX
      · rw [if_pos hnt, if_neg (by simp [hot])]
      · rw [if_neg hnt]

/-- Witness for the amended C8: with the prepared cell `cPrep`, the
appender skips on a chain whose second entry is a standard update (the
non-tombstone sits past the head) but appends on the pure tombstone
chain. -/
theorem c8_prepared_cell_witness :
    recAppendOrigValue sW cPrep [updTomb 9 50, updStd 3 60] = Except.ok [] ∧
    recAppendOrigValue sW cPrep [updTomb 9 50] = Except.ok [stdFromCell cPrep] :=
  ⟨c8_prepared_cell.1 sW cPrep [updTomb 9 50, updStd 3 60] (updStd 3 60)
      (by decide) (by decide) (by decide),
   c8_prepared_cell.2 sW cPrep (updTomb 9 50) [] (by decide) (by decide)⟩

/-- Witness for C1 on the concrete chain `[updStd 10 5, updStd 3 20]`
(newest uncommitted under `last_running = 7`, older committed). -/
theorem c1_selection_rule_witness :
    selectable sW rW (updStd 3 20) = true ∧
    (updPrepared (updStd 3 20) = true →
      rW.evict = true ∧ (updStd 3 20).prepare_state = PrepareState.inprogress) ∧
    ∃ pre, [updStd 10 5, updStd 3 20] = pre ++ updStd 3 20 :: [] ∧
      ∀ v ∈ pre, v.txnid ≠ WT_TXN_ABORTED →
        (selCommitted sW rW v = false ∨ updPrepared v = true) :=
  c1_selection_rule sW rW [updStd 10 5, updStd 3 20] stC1 (updStd 3 20) []
    (by decide) (by decide) (by decide)

/-! ### Claim C4 -/

theorem recAppend_self (s : Session) (c : CellUnpack) :
    recAppendOrigValue s c [stdFromCell c] = Except.ok [] := by
  have hloop : appendLoop s c none [stdFromCell c] = none := by
    simp only [appendLoop]
    by_cases hp : c.prepare = true
    · rw [if_neg (by simp [stdFromCell]), if_pos ⟨hp, by simp [stdFromCell]⟩]
    · rw [if_neg (by simp [stdFromCell]), if_neg (by simp [hp]),
        if_pos ⟨by simp [stdFromCell], by simp [stdFromCell], by simp [stdFromCell]⟩]
  simp only [recAppendOrigValue, hloop]

/-- C4: on a chain whose only entry is a committed, non-prepared,
not-globally-visible tombstone with an on-disk cell whose stop pair is
unbounded, `__wt_rec_upd_select` sets the window stop from the
tombstone, appends a synthetic standard update built from the cell's
start fields at the chain tail, points the selection at that appended
entry, and takes the window start from the cell's start pair. -/
theorem c4_tombstone_only (s : Session) (r : Reconcile) (tomb : Upd)
    (c : CellUnpack)
    (htype : tomb.utype = UpdType.tombstone)
    (hab : tomb.txnid ≠ WT_TXN_ABORTED)
    (hcom : updUncommitted s r tomb = false)
    (hprep : updPrepared tomb = false)
    (hrest : tomb.restored_for_rollback = false)
    (hvs : s.visible_all tomb.txnid tomb.start_ts = false)
    (hvd : s.visible_all tomb.txnid tomb.durable_ts = false)
    (hnt : tomb.start_ts ≠ WT_TS_NONE ∨ tomb.txnid ≠ WT_TXN_NONE)
    (hs1 : c.tw.stop_ts = WT_TS_MAX) (hs2 : c.tw.stop_txn = WT_TXN_MAX)
    (hord : ¬(tomb.start_ts < c.tw.start_ts ∨
      (tomb.start_ts = c.tw.start_ts ∧ tomb.txnid < c.tw.start_txn))) :
    ∃ res, updSelect s r [tomb] (some c) = Except.ok res ∧
      res.sel = some (stdFromCell c) ∧
      res.chain = [tomb, stdFromCell c] ∧
      res.tw.stop_ts = tomb.start_ts ∧ res.tw.stop_txn = tomb.txnid ∧
      res.tw.durable_stop_ts = tomb.durable_ts ∧
      res.tw.start_ts = c.tw.start_ts ∧ res.tw.start_txn = c.tw.start_txn ∧
      res.tw.durable_start_ts = c.tw.durable_start_ts := by
  have hpreps : ¬(updPrepared tomb = true ∧ r.evict = false) := by simp [hprep]
  have hinprog : ¬(tomb.prepare_state = PrepareState.inprogress) := fun hx => by
    simp [updPrepared, hx] at hprep
  -- the walk selects the tombstone
  have hstep : ∃ st2,
      (walkStep s r (initWalk r) tomb [] = StepRes.skip st2 ∨
        walkStep s r (initWalk r) tomb [] = StepRes.brk st2) ∧
      st2.sel = some (tomb, []) ∧ st2.first_txn_upd.isNone = false ∧
      st2.has_newer_updates = false := by
    simp only [walkStep]
    rw [if_neg hab, if_neg (by simp [hcom]), if_neg hpreps]
    by_cases hev : r.evict = true
    · rw [if_pos hev]
      by_cases hstab : rec_update_stable s r tomb = true
      · rw [if_pos hstab]
        exact ⟨_, Or.inl rfl,
          by simp [setSel_sel, bumpFirst_first, initWalk],
          by simp [bumpFirst_first, initWalk],
          by simp [initWalk]⟩
      · rw [if_neg hstab]
        exact ⟨_, Or.inl rfl,
          by simp [setSel_sel, bumpFirst_first, initWalk],
          by simp [bumpFirst_first, initWalk],
          by simp [initWalk]⟩
    · rw [if_neg hev]
      exact ⟨_, Or.inr rfl,
        by simp [setSel_sel, bumpFirst_first, initWalk],
        by simp [bumpFirst_first, initWalk],
        by simp [initWalk]⟩
  obtain ⟨st2, hor, hsel2, hfirst2, hnu2⟩ := hstep
  have hwalk : walkChain s r (initWalk r) [tomb] = WalkOut.done st2 := by
    rw [walkChain_cons]
    rcases hor with h | h <;> (rw [h]; try rfl)
  -- the original value is appended for the tombstone
  have happend : recAppendOrigValue s c [tomb] = Except.ok [stdFromCell c] := by
    have hloop : appendLoop s c none [tomb] = some (some tomb) := by
      simp only [appendLoop]
      rw [if_neg (by simp [hrest]), if_neg (by simp [htype]),
        if_neg (by simp [htype]),
        if_neg (by simp [txn_upd_visible_all, hprep, hvd]), if_pos hab]
    simp only [recAppendOrigValue, hloop]
    rw [if_neg (by simp [hs1, hs2]), if_neg (by simp [hs1, hs2])]
  -- the selection phase produces the appended synthetic standard
  have hphase : selectPhase s (some c) (some (tomb, [])) =
      Except.ok (some (stdFromCell c, []),
        twSetStart (twSetStop twInit tomb) (stdFromCell c),
        [stdFromCell c]) := by
    simp only [selectPhase, skipAborted]
    rw [if_neg hinprog, if_pos htype, if_neg (by simp [hvs])]
    rw [if_pos (show (twSetStop twInit tomb).stop_ts ≠ WT_TS_NONE ∨
        (twSetStop twInit tomb).stop_txn ≠ WT_TXN_NONE from by
      simpa [twSetStop] using hnt)]
    rw [happend]
  -- assemble
  simp only [updSelect, hwalk]
  rw [if_neg (by simp [hfirst2]), if_neg (by simp [hnu2])]
  simp only [finishSelect, hsel2, hphase]
  by_cases hcnd : c.kind ≠ CellKind.del ∧
      ((applySave s (foldWatermarks r st2) st2 (some (stdFromCell c, []))
        (twRepair (twSetStart (twSetStop twInit tomb) (stdFromCell c)))).2 ||
        c.overflow) = true
  · rw [if_pos hcnd]
    simp only [recAppend_self]
    refine ⟨_, rfl, rfl, by simp, ?_, ?_, ?_, ?_, ?_, ?_⟩ <;>
      simp [twRepair, twSetStart, twSetStop, stdFromCell, twInit, hord]
  · rw [if_neg hcnd]
    refine ⟨_, rfl, rfl, by simp, ?_, ?_, ?_, ?_, ?_, ?_⟩ <;>
      simp [twRepair, twSetStart, twSetStop, stdFromCell, twInit, hord]

/-- Witness for C4: the scenario chain `[TOMB(txn 9, ts 50)]` with a
cell whose start pair is `(ts 20, txn 3)` and unbounded stop. -/
theorem c4_tombstone_only_witness :
    ∃ res, updSelect sW rBig [updTomb 9 50] (some cC4) = Except.ok res ∧
      res.sel = some (stdFromCell cC4) ∧
      res.chain = [updTomb 9 50, stdFromCell cC4] ∧
      res.tw.stop_ts = (updTomb 9 50).start_ts ∧
      res.tw.stop_txn = (updTomb 9 50).txnid ∧
      res.tw.durable_stop_ts = (updTomb 9 50).durable_ts ∧
      res.tw.start_ts = cC4.tw.start_ts ∧
      res.tw.start_txn = cC4.tw.start_txn ∧
      res.tw.durable_start_ts = cC4.tw.durable_start_ts :=
  c4_tombstone_only sW rBig (updTomb 9 50) cC4 (by decide) (by decide)
    (by decide) (by decide) (by decide) (by decide) (by decide) (by decide)
    (by decide) (by decide) (by decide)

/-! ### Claim C5 (amended) -/

theorem selectable_nonaborted (s : Session) (r : Reconcile) (u : Upd)
    (h : selectable s r u = true) : u.txnid ≠ WT_TXN_ABORTED := by
  simp only [selectable, Bool.and_eq_true, Bool.not_eq_true',
    decide_eq_false_iff_not] at h
  exact h.1.1

theorem skipAborted_mem :
    ∀ (rest : List Upd) (u lastu v : Upd) (vs : List Upd),
      skipAborted u rest = (lastu, v :: vs) →
      v ∈ rest ∧ v.txnid ≠ WT_TXN_ABORTED := by
  intro rest
  induction rest with
  | nil =>
    intro u lastu v vs h
    simp [skipAborted] at h
  | cons w ws ih =>
    intro u lastu v vs h
    simp only [skipAborted] at h
    split at h
    · obtain ⟨hv, hab⟩ := ih w lastu v vs h
      exact ⟨List.mem_cons_of_mem _ hv, hab⟩
    · rename_i hnab
      injection h with h1 h2
      injection h2 with h3 h4
      subst h3
      exact ⟨List.mem_cons_self w ws, hnab⟩

theorem recAppend_head (s : Session) (c : CellUnpack) (suffix : List Upd)
    (a : Upd) (tl : List Upd)
    (h : recAppendOrigValue s c suffix = Except.ok (a :: tl)) :
    a = stdFromCell c ∨ a = tombFromCell c := by
  unfold recAppendOrigValue at h
  repeat' split at h
  all_goals
    cases h <;> simp [stdFromCell, tombFromCell]

theorem selectPhase_sel_classify (s : Session) (vpack : Option CellUnpack)
    (sel0 : Option (Upd × List Upd))
    (out : Option (Upd × List Upd) × TimeWindow × List Upd)
    (h : selectPhase s vpack sel0 = Except.ok out) :
    (∀ p, out.1 = some p →
      (∃ u rest, sel0 = some (u, rest) ∧
        (p.1 = u ∨ (p.1 ∈ rest ∧ p.1.txnid ≠ WT_TXN_ABORTED))) ∨
      (∃ c, vpack = some c ∧
        (p.1 = stdFromCell c ∨ p.1 = tombFromCell c))) ∧
    (out.1 = none →
      (out.2.1.stop_ts = WT_TS_MAX ∧ out.2.1.stop_txn = WT_TXN_MAX) ∨
      (out.2.1.stop_ts = WT_TS_NONE ∧ out.2.1.stop_txn = WT_TXN_NONE)) := by
  simp only [selectPhase] at h
  split at h
  · cases h
    exact ⟨fun p hp => Option.noConfusion hp, fun _ => Or.inl ⟨rfl, rfl⟩⟩
  · rename_i u rest
    generalize (if u.prepare_state = PrepareState.inprogress then
        ({ twInit with prepare := true } : TimeWindow) else twInit) = tw1 at h
    split at h
    · split at h
      · cases h
        refine ⟨fun p hp => ?_, fun hn => Option.noConfusion hn⟩
        obtain rfl : (u, rest) = p := Option.some.inj hp
        exact Or.inl ⟨u, rest, rfl, Or.inl rfl⟩
      · split at h
        · rename_i fstu v vs hskip
          cases h
          refine ⟨fun p hp => ?_, fun hn => Option.noConfusion hn⟩
          obtain rfl : (v, vs) = p := Option.some.inj hp
          obtain ⟨hmem, hnab⟩ := skipAborted_mem rest u fstu v vs hskip
          exact Or.inl ⟨u, rest, rfl, Or.inr ⟨hmem, hnab⟩⟩
        · rename_i fstu hskip
          split at h
          · split at h
            · cases h
            · rename_i c
              split at h
              · cases h
              · cases h
              · rename_i a tl happ
                cases h
                refine ⟨fun p hp => ?_, fun hn => Option.noConfusion hn⟩
                obtain rfl : (a, tl) = p := Option.some.inj hp
                exact Or.inr ⟨c, rfl, recAppend_head s c (u :: rest) a tl happ⟩
          · rename_i hstop
            cases h
            refine ⟨fun p hp => Option.noConfusion hp, fun _ => ?_⟩
            right
            push_neg at hstop
            exact hstop
    · cases h
      refine ⟨fun p hp => ?_, fun hn => Option.noConfusion hn⟩
      obtain rfl : (u, rest) = p := Option.some.inj hp
      exact Or.inl ⟨u, rest, rfl, Or.inl rfl⟩

/-- C5 is refuted as stated (see the counterexample: a globally visible
tombstone is returned as the selection).  Amended: upon OK, given that
the chain carries no RESERVE updates (the code asserts it never sees
one) and the cell's pairs carry live transaction ids, the final
selection is either `none` — and then the stop window is the default
`(MAX, MAX)` or the null `(NONE, NONE)` pair, an appended synthetic
standard having otherwise become the selection — or a non-aborted
update that is never RESERVE (but may be a tombstone). -/
theorem c5_selection_kind (s : Session) (r : Reconcile) (chain : List Upd)
    (vpack : Option CellUnpack) (res : UpdSelectRes)
    (hres : ∀ v ∈ chain, v.utype ≠ UpdType.reserve)
    (hcell : ∀ c, vpack = some c → c.tw.start_txn ≠ WT_TXN_ABORTED ∧
      c.tw.stop_txn ≠ WT_TXN_ABORTED)
    (hok : updSelect s r chain vpack = Except.ok res) :
    (∀ u, res.sel = some u →
      u.txnid ≠ WT_TXN_ABORTED ∧ u.utype ≠ UpdType.reserve) ∧
    (res.sel = none →
      (res.tw.stop_ts = WT_TS_MAX ∧ res.tw.stop_txn = WT_TXN_MAX) ∨
      (res.tw.stop_ts = WT_TS_NONE ∧ res.tw.stop_txn = WT_TXN_NONE)) := by
  unfold updSelect at hok
  split at hok
  · cases hok
  · rename_i st heq
    split at hok
    · cases hok
      exact ⟨fun u hu => Option.noConfusion hu, fun _ => Or.inl ⟨rfl, rfl⟩⟩
    · split at hok
      · split at hok <;> cases hok
      · obtain ⟨sel1, tw3, app1, hphase, hsel, htw, -, -⟩ :=
          finishSelect_spec _ _ _ _ _ _ hok
        obtain ⟨hcls1, hcls2⟩ :=
          selectPhase_sel_classify s vpack st.sel (sel1, tw3, app1) hphase
        constructor
        · intro u hu
          rw [hsel] at hu
          obtain ⟨p, hp, hpu⟩ := Option.map_eq_some'.mp hu
          subst hpu
          rcases hcls1 p hp with ⟨u0, rest0, hst, hcase⟩ | ⟨c, hvc, hcase⟩
          · obtain ⟨pre, hchain, hselectable, -⟩ :=
              walkChain_done_decomp s r chain (initWalk r) st u0 rest0 rfl heq hst
            rcases hcase with hc | ⟨hmem, hnab⟩
            · rw [hc]
              refine ⟨selectable_nonaborted s r u0 hselectable, hres u0 ?_⟩
              rw [hchain]
              exact List.mem_append_right pre (List.mem_cons_self u0 rest0)
            · refine ⟨hnab, hres p.1 ?_⟩
              rw [hchain]
              exact List.mem_append_right pre (List.mem_cons_of_mem u0 hmem)
          · obtain ⟨hstart, hstop⟩ := hcell c hvc
            rcases hcase with hc | hc <;> rw [hc]
            · exact ⟨hstart, by simp [stdFromCell]⟩
            · exact ⟨hstop, by simp [tombFromCell]⟩
        · intro hnone
          rw [hsel] at hnone
          have hsel1 : sel1 = none := Option.map_eq_none'.mp hnone
          rw [htw]
          rcases hcls2 hsel1 with ⟨h1, h2⟩ | ⟨h1, h2⟩
          · exact Or.inl ⟨(twRepair_stop tw3).1.trans h1,
              (twRepair_stop tw3).2.trans h2⟩
          · exact Or.inr ⟨(twRepair_stop tw3).1.trans h1,
              (twRepair_stop tw3).2.trans h2⟩

/-- Witness for the amended C5 on the globally-visible-tombstone run. -/
theorem c5_selection_kind_witness :
    (∀ u, resC5.sel = some u →
      u.txnid ≠ WT_TXN_ABORTED ∧ u.utype ≠ UpdType.reserve) ∧
    (resC5.sel = none →
      (resC5.tw.stop_ts = WT_TS_MAX ∧ resC5.tw.stop_txn = WT_TXN_MAX) ∨
      (resC5.tw.stop_ts = WT_TS_NONE ∧ resC5.tw.stop_txn = WT_TXN_NONE)) :=
  c5_selection_kind sVis rW [updTomb 5 30] none resC5 (by decide)
    (fun c hc => Option.noConfusion hc) (by decide)

/-! ### Claim C2 -/

theorem not_selectable_of_classify (s : Session) (r : Reconcile) (u : Upd)
    (h : updUncommitted s r u = true ∨ (updPrepared u = true ∧ r.evict = false)) :
    ¬ selectable s r u = true := by
  intro hs
  simp only [selectable, Bool.and_eq_true, Bool.or_eq_true, Bool.not_eq_true',
    decide_eq_false_iff_not] at hs
  obtain ⟨⟨-, hcom⟩, hpe⟩ := hs
  rcases h with h | ⟨h1, h2⟩
  · rw [selCommitted_eq_not_uncommitted, h] at hcom
    simp at hcom
  · rcases hpe with h3 | h3
    · rw [h1] at h3; cases h3
    · rw [h2] at h3; cases h3

theorem walkChain_busy_aux (s : Session) (r : Reconcile) :
    ∀ (chain : List Upd) (st : WalkState),
      (st.sel.isSome = true → r.evict = true) →
      (walkChain s r st chain = WalkOut.busy ↔
        ∃ pre u post, chain = pre ++ u :: post ∧ u.txnid ≠ WT_TXN_ABORTED ∧
          updUncommitted s r u = true ∧
          (st.sel.isSome = true ∨
            (r.evict = true ∧ ∃ v ∈ pre, selectable s r v = true))) := by
  intro chain
  induction chain with
  | nil =>
    intro st hinv
    constructor
    · intro h
      exact WalkOut.noConfusion h
    · rintro ⟨pre, u, post, heq, -⟩
      exact absurd heq (by simp)
  | cons u0 rest0 ih =>
    intro st hinv
    rw [walkChain_cons]
    cases hstep : walkStep s r st u0 rest0 with
    | busy =>
      obtain ⟨hab, hunc, hsel⟩ := (walkStep_busy_iff s r st u0 rest0).mp hstep
      exact ⟨fun _ => ⟨[], u0, rest0, rfl, hab, hunc, Or.inl hsel⟩, fun _ => rfl⟩
    | brk st3 =>
      obtain ⟨hev, -, -⟩ := walkStep_brk_sel s r st st3 u0 rest0 hstep
      have hselnone : st.sel.isSome = false := by
        cases hx : st.sel.isSome
        · rfl
        · rw [hinv hx] at hev; cases hev
      constructor
      · intro h
        exact WalkOut.noConfusion h
      · rintro ⟨pre, u, post, heq, hab, hunc, hcond⟩
        rcases hcond with hc | ⟨hce, -⟩
        · rw [hselnone] at hc; cases hc
        · rw [hce] at hev; cases hev
    | skip st3 =>
      show walkChain s r st3 rest0 = WalkOut.busy ↔ _
      have hinv3 : st3.sel.isSome = true → r.evict = true := by
        rcases walkStep_skip_sel s r st st3 u0 rest0 hstep with hc | ⟨-, -, -, hev⟩
        · rw [hc]; exact hinv
        · exact fun _ => hev
      rw [ih st3 hinv3]
      constructor
      · rintro ⟨pre, u, post, heq, hab, hunc, hcond⟩
        refine ⟨u0 :: pre, u, post, by simp [heq], hab, hunc, ?_⟩
        rcases hcond with hc3 | ⟨hev2, v, hv, hsv⟩
        · rcases walkStep_skip_sel s r st st3 u0 rest0 hstep with hc | ⟨hn, hset, hsb, hev⟩
          · rw [hc] at hc3
            exact Or.inl hc3
          · exact Or.inr ⟨hev, u0, List.mem_cons_self u0 pre, hsb⟩
        · exact Or.inr ⟨hev2, v, List.mem_cons_of_mem u0 hv, hsv⟩
      · rintro ⟨pre, u, post, heq, hab, hunc, hcond⟩
        cases pre with
        | nil =>
          simp only [List.nil_append, List.cons.injEq] at heq
          obtain ⟨rfl, rfl⟩ := heq
          rcases hcond with hc | ⟨-, v, hv, -⟩
          · exfalso
            have hbusy := (walkStep_busy_iff s r st u0 rest0).mpr ⟨hab, hunc, hc⟩
            rw [hstep] at hbusy
            exact StepRes.noConfusion hbusy
          · exact absurd hv (List.not_mem_nil v)
        | cons w ws =>
          simp only [List.cons_append, List.cons.injEq] at heq
          obtain ⟨hw, heq2⟩ := heq
          subst hw
          refine ⟨ws, u, post, heq2, hab, hunc, ?_⟩
          rcases hcond with hc | ⟨hev2, v, hv, hsv⟩
          · rcases walkStep_skip_sel s r st st3 u0 rest0 hstep with hc2 | ⟨hn, hset, hsb, hev⟩
            · rw [← hc2] at hc
              exact Or.inl hc
            · exact Or.inl (by rw [hset]; rfl)
          · rcases List.mem_cons.mp hv with rfl | hv2
            · rcases walkStep_skip_sel s r st st3 v rest0 hstep with hc2 | ⟨hn, hset, hsb, hev⟩
              · cases hx : st.sel.isSome with
                | true => exact Or.inl (by rw [hc2, hx])
                | false =>
                  exfalso
                  have hstnone : st.sel = none :=
                    Option.not_isSome_iff_eq_none.mp (by simp [hx])
                  have h3none : st3.sel = none := by rw [hc2, hstnone]
                  have hclass := walkStep_skip_none_classify s r st st3 v rest0
                    hstep h3none (selectable_nonaborted s r v hsv)
                  exact not_selectable_of_classify s r v hclass hsv
              · exact Or.inl (by rw [hset]; rfl)
            · exact Or.inr ⟨hev2, v, hv2, hsv⟩

/-- C2 is refuted as stated (counterexample below: BUSY is also returned
with no writable update chosen, when `CLEAN_AFTER_REC` is set and an
uncommitted entry was seen).  Amended: `__wt_rec_upd_select` returns
BUSY exactly when either the chain walk reaches, under eviction, a
non-aborted uncommitted entry strictly after some selectable (committed,
non-skipped) entry, or the walk completes having observed newer updates
on a chain with a live entry while `WT_REC_CLEAN_AFTER_REC` is set and
`WT_REC_VISIBILITY_ERR` is not (the latter turns the case into a
panic). -/
theorem c2_busy_characterization (s : Session) (r : Reconcile)
    (chain : List Upd) (vpack : Option CellUnpack) :
    (updSelect s r chain vpack = Except.error RecErr.busy ↔
      (walkChain s r (initWalk r) chain = WalkOut.busy ∨
        ∃ st, walkChain s r (initWalk r) chain = WalkOut.done st ∧
          st.first_txn_upd.isSome = true ∧ st.has_newer_updates = true ∧
          r.clean_after_rec = true ∧ r.visibility_err = false)) ∧
    (walkChain s r (initWalk r) chain = WalkOut.busy ↔
      (r.evict = true ∧ ∃ pre u post, chain = pre ++ u :: post ∧
        u.txnid ≠ WT_TXN_ABORTED ∧ updUncommitted s r u = true ∧
        ∃ v ∈ pre, selectable s r v = true)) := by
  constructor
  · constructor
    · intro h
      unfold updSelect at h
      split at h
      · exact Or.inl (by assumption)
      · rename_i st heq
        split at h
        · cases h
        · rename_i hfirst
          split at h
          · rename_i hguard
            split at h
            · cases h
            · rename_i hviserr
              right
              rw [Bool.and_eq_true] at hguard
              obtain ⟨h1, h2⟩ := hguard
              refine ⟨st, heq, ?_, h1, ?_, ?_⟩
              · cases hx : st.first_txn_upd.isSome
                · exfalso
                  apply hfirst
                  have hnone : st.first_txn_upd = none :=
                    Option.not_isSome_iff_eq_none.mp (by simp [hx])
                  rw [hnone]
                  rfl
                · rfl
              · rw [Bool.or_eq_true] at h2
                rcases h2 with h3 | h3
                · exact h3
                · exact absurd h3 hviserr
              · cases hx : r.visibility_err
                · rfl
                · exact absurd hx hviserr
          · exact absurd (finishSelect_err _ _ _ _ _ _ h) (by decide)
    · rintro (h | ⟨st, heq, h1, h2, h3, h4⟩)
      · simp only [updSelect, h]
      · simp only [updSelect, heq]
        obtain ⟨x, hx⟩ := Option.isSome_iff_exists.mp h1
        rw [if_neg (by rw [hx]; simp), if_pos (by rw [h2, h3]; rfl),
          if_neg (by rw [h4]; simp)]
  · have haux := walkChain_busy_aux s r chain (initWalk r)
      (fun hx => by simp [initWalk] at hx)
    rw [haux]
    constructor
    · rintro ⟨pre, u, post, heq, hab, hunc, hcond⟩
      rcases hcond with hx | ⟨hev, hex⟩
      · simp [initWalk] at hx
      · exact ⟨hev, pre, u, post, heq, hab, hunc, hex⟩
    · rintro ⟨hev, pre, u, post, heq, hab, hunc, hex⟩
      exact ⟨pre, u, post, heq, hab, hunc, Or.inr ⟨hev, hex⟩⟩

/-- C2 is refuted at a concrete input: with `CLEAN_AFTER_REC` set and
the single-entry uncommitted chain `[updStd 10 5]`, the call returns
BUSY although the walk completed with no writable update ever chosen
(`stC2.sel = none`). -/
theorem c2_counterexample :
    updSelect sW rC2 [updStd 10 5] none = Except.error RecErr.busy ∧
    walkChain sW rC2 (initWalk rC2) [updStd 10 5] = WalkOut.done stC2 ∧
    stC2.sel = none := by decide

end WTRec
